import Mathlib

/-!
Shallow embedding of the celloflow frontend utilities
(`src/apps/frontend/src/utils/celloMapping.ts`,
`src/apps/frontend/src/utils/fingerboardMapper.ts`,
`src/apps/frontend/src/components/StringPointDebugScene.tsx`) and proofs
about the coordinate-mapping, note-resolution, validation and
import/export logic.  JavaScript numbers are modelled as real numbers,
JSON values as an inductive `Json` type, and the mutable
`currentMapping` cell as explicit `Option` state passing.
-/

/-- The four cello strings (`types.ts`, `StringName`). -/
inductive StringName where
  | C
  | G
  | D
  | A
deriving DecidableEq

/-- One calibrated fingerboard point (`types.ts`, `StringPoint`).
JavaScript `number` fields are modelled as real numbers. -/
structure StringPoint where
  string : StringName
  index : ℝ
  x : ℝ
  y : ℝ
  z : ℝ

/-- The flat persistent mapping record (`types.ts`, `CelloMapping`). -/
structure CelloMapping where
  points : List StringPoint
  celloScale : ℝ
  centerX : ℝ
  centerY : ℝ
  centerZ : ℝ
  hSpacing : ℝ
  vSpacing : ℝ
  tiltDeg : ℝ
  version : String

/-- Rotation of a (y, z) pair about the X axis
(`celloMapping.ts` lines 17-22 and `StringPointDebugScene.tsx` lines 34-40:
both files define the identical helper `rotateYandZ`). -/
noncomputable def rotateYandZ (y z angleRad : ℝ) : ℝ × ℝ :=
  (y * Real.cos angleRad - z * Real.sin angleRad,
   y * Real.sin angleRad + z * Real.cos angleRad)

open Classical in
/-- The `mapping.points.find(p => p.string === note.string && p.index === note.bin)`
lookup shared by both `getNotePosition` implementations.  Equality of the
real-valued `index` field uses classical decidability, mirroring `===` on
JavaScript numbers. -/
noncomputable def findPoint (points : List StringPoint) (s : StringName) (bin : ℝ) :
    Option StringPoint :=
  points.find? fun p => decide (p.string = s) && decide (p.index = bin)

/-- `getNotePosition` from `celloMapping.ts` lines 25-39.  The state argument
is the module-level `currentMapping` cell (`null` modelled as `none`).  The
found point is returned directly: the comment in the source says the points
from export already have the tilt applied. -/
noncomputable def getNotePosition (st : Option CelloMapping) (s : StringName) (bin : ℝ) :
    Option (ℝ × ℝ × ℝ) :=
  match st with
  | none => none
  | some mapping =>
    match findPoint mapping.points s bin with
    | none => none
    | some point => some (point.x, point.y, point.z)

namespace StringPointDebug

/-- `getNotePosition` from `StringPointDebugScene.tsx` lines 43-60: unlike the
`celloMapping.ts` function of the same name, it applies the stored tilt to the
found point before returning it. -/
noncomputable def getNotePosition (st : Option CelloMapping) (s : StringName) (bin : ℝ) :
    Option (ℝ × ℝ × ℝ) :=
  match st with
  | none => none
  | some mapping =>
    match findPoint mapping.points s bin with
    | none => none
    | some point =>
      let tiltRad := mapping.tiltDeg * Real.pi / 180
      let r := rotateYandZ point.y point.z tiltRad
      some (point.x, r.1, r.2)

end StringPointDebug

/-- A concrete stored mapping used to separate the two `getNotePosition`
implementations: one point on the A string at index 0, with a 180 degree tilt. -/
noncomputable def tiltedMapping : CelloMapping :=
  { points := [{ string := StringName.A, index := 0, x := 0, y := 1, z := 0 }]
    celloScale := 5
    centerX := 0
    centerY := 0
    centerZ := 0
    hSpacing := 1
    vSpacing := 1
    tiltDeg := 180
    version := "1.0" }

/-- Evaluation of the point lookup on the concrete mapping. -/
lemma findPoint_tiltedMapping :
    findPoint tiltedMapping.points StringName.A 0 =
      some { string := StringName.A, index := 0, x := 0, y := 1, z := 0 } := by
  simp [findPoint, tiltedMapping, List.find?]

/-- C1 (counterexample): on the stored mapping `tiltedMapping` the query
(A, 0) matches the stored point (0, 1, 0), but `getNotePosition` from
`celloMapping.ts` does not return the tilt-rotated coordinate
(x, y cos t - z sin t, y sin t + z cos t) that the claim describes: it
returns the stored point unchanged. -/
theorem claim_C1_cex :
    getNotePosition (some tiltedMapping) StringName.A 0 ≠
      some (0, 1 * Real.cos (180 * Real.pi / 180) - 0 * Real.sin (180 * Real.pi / 180),
               1 * Real.sin (180 * Real.pi / 180) + 0 * Real.cos (180 * Real.pi / 180)) := by
  have hval : getNotePosition (some tiltedMapping) StringName.A 0 = some (0, 1, 0) := by
    simp [getNotePosition, findPoint_tiltedMapping]
  rw [hval]
  have hcos : Real.cos (180 * Real.pi / 180) = -1 := by
    rw [show (180 : ℝ) * Real.pi / 180 = Real.pi by ring]
    exact Real.cos_pi
  intro h
  have h2 := congrArg (fun o => o.map fun v => v.2.1) h
  simp [hcos] at h2
  norm_num at h2

/-- C1 (amended): whenever the note query (string, bin) matches a stored
point, the `celloMapping.ts` `getNotePosition` returns that point's stored
coordinates unchanged (the exported points already carry the tilt), while the
`StringPointDebugScene.tsx` `getNotePosition` returns the point with its
(y, z) rotated about the X axis by tiltDeg * pi / 180. -/
theorem claim_C1 (m : CelloMapping) (s : StringName) (bin : ℝ) (p : StringPoint)
    (hfind : findPoint m.points s bin = some p) :
    getNotePosition (some m) s bin = some (p.x, p.y, p.z) ∧
    StringPointDebug.getNotePosition (some m) s bin =
      some (p.x, (rotateYandZ p.y p.z (m.tiltDeg * Real.pi / 180)).1,
                 (rotateYandZ p.y p.z (m.tiltDeg * Real.pi / 180)).2) := by
  constructor
  · simp [getNotePosition, hfind]
  · simp [StringPointDebug.getNotePosition, hfind]

/-- C1 witness: the amended statement evaluated on the concrete mapping. -/
theorem claim_C1_wit :
    getNotePosition (some tiltedMapping) StringName.A 0 = some (0, 1, 0) ∧
    StringPointDebug.getNotePosition (some tiltedMapping) StringName.A 0 =
      some (0, (rotateYandZ 1 0 (180 * Real.pi / 180)).1,
               (rotateYandZ 1 0 (180 * Real.pi / 180)).2) := by
  have h := claim_C1 tiltedMapping StringName.A 0
    { string := StringName.A, index := 0, x := 0, y := 1, z := 0 }
    findPoint_tiltedMapping
  simpa [tiltedMapping] using h

/-- C7: `rotateYandZ` is a single-axis rotation: it preserves y^2 + z^2,
rotating by angle 0 is the identity, and rotating by t then by -t returns
the original pair. -/
theorem claim_C7 (y z t : ℝ) :
    ((rotateYandZ y z t).1) ^ 2 + ((rotateYandZ y z t).2) ^ 2 = y ^ 2 + z ^ 2 ∧
    rotateYandZ y z 0 = (y, z) ∧
    rotateYandZ (rotateYandZ y z t).1 (rotateYandZ y z t).2 (-t) = (y, z) := by
  have h : Real.sin t ^ 2 + Real.cos t ^ 2 = 1 := Real.sin_sq_add_cos_sq t
  refine ⟨?_, ?_, ?_⟩
  · simp only [rotateYandZ]
    linear_combination (y ^ 2 + z ^ 2) * h
  · simp [rotateYandZ]
  · simp only [rotateYandZ, Real.cos_neg, Real.sin_neg]
    refine Prod.ext ?_ ?_ <;> dsimp only
    · linear_combination y * h
    · linear_combination z * h

/-- The twelve chromatic note names (`fingerboardMapper.ts` line 12), written
as the concatenation of the two half-octaves; the list value is the source's
array C, C#, D, D#, E, F, F#, G, G#, A, A#, B. -/
def NOTE_NAMES : List String :=
  ["C", "C#", "D", "D#", "E", "F"] ++ ["F#", "G", "G#", "A", "A#", "B"]

/-- Standard cello tuning frequencies (`fingerboardMapper.ts` lines 4-9);
`Object.entries` iterates the keys in insertion order C, G, D, A. -/
noncomputable def CELLO_TUNING : StringName → ℝ
  | StringName.C => 65.41
  | StringName.G => 98.00
  | StringName.D => 146.83
  | StringName.A => 220.00

/-- JavaScript `Math.round`: halves round toward positive infinity. -/
noncomputable def jsRound (x : ℝ) : ℤ := ⌊x + 1 / 2⌋

/-- A musical note (`types.ts`, `MusicalNote`). -/
structure MusicalNote where
  note : String
  octave : ℤ
  frequency : ℝ

/-- The semitone distance from A4 computed inside `getNoteFromFrequency`
(`fingerboardMapper.ts` line 58): `Math.round(12 * Math.log2(frequency / 440))`. -/
noncomputable def semitonesFromA4 (frequency : ℝ) : ℤ :=
  jsRound (12 * Real.logb 2 (frequency / 440))

/-- `getNoteFromFrequency` (`fingerboardMapper.ts` lines 51-70).  JavaScript
`%` is truncated remainder (`Int.tmod`) and `Math.floor` of an integer
quotient is floor division (`Int.fdiv`). -/
noncomputable def getNoteFromFrequency (frequency : ℝ) : MusicalNote :=
  let semitones := semitonesFromA4 frequency
  let totalSemitones := 9 + semitones
  let octave := 4 + Int.fdiv totalSemitones 12
  let noteIndex := Int.tmod (Int.tmod totalSemitones 12 + 12) 12
  { note := NOTE_NAMES.getD noteIndex.toNat "", octave := octave, frequency := frequency }

/-- A note at a fingerboard position (`types.ts`, `FingerboardNote`). -/
structure FingerboardNote where
  string : StringName
  position : ℕ
  musicalNote : MusicalNote
  isOpenString : Bool

/-- The generated fingerboard table (`types.ts`, `FingerboardMapping`). -/
structure FingerboardMapping where
  notes : List FingerboardNote
  version : String

/-- The string order used by the debug scene grid and by
`Object.entries(CELLO_TUNING)`. -/
def STRINGS : List StringName :=
  [StringName.C, StringName.G, StringName.D, StringName.A]

/-- The per-string body of the loop in `generateFingerboardMapping`
(`fingerboardMapper.ts` lines 19-42): one open-string note, then fingered
positions 1 through 12 at frequency `baseFreq * 2 ^ (position / 12)`. -/
noncomputable def stringNotes (string : StringName) (baseFreq : ℝ) : List FingerboardNote :=
  { string := string, position := 0,
    musicalNote := getNoteFromFrequency baseFreq, isOpenString := true } ::
  (List.range 12).map fun i =>
    { string := string, position := i + 1,
      musicalNote := getNoteFromFrequency (baseFreq * (2 : ℝ) ^ (((i : ℝ) + 1) / 12)),
      isOpenString := false }

/-- `generateFingerboardMapping` (`fingerboardMapper.ts` lines 15-48). -/
noncomputable def generateFingerboardMapping : FingerboardMapping :=
  { notes := STRINGS.flatMap fun s => stringNotes s (CELLO_TUNING s), version := "1.0" }

/-- Rounding an exact integer is the identity. -/
lemma jsRound_intCast (k : ℤ) : jsRound (k : ℝ) = k := by
  unfold jsRound
  rw [add_comm, Int.floor_add_int]
  norm_num

/-- Negating the dividend negates the truncated remainder. -/
lemma tmod_neg_left (a b : ℤ) : Int.tmod (-a) b = -Int.tmod a b := by
  rw [Int.tmod_def, Int.tmod_def, Int.neg_tdiv]
  ring

/-- The truncated-remainder normalisation in `getNoteFromFrequency` computes
the mathematical residue modulo 12. -/
lemma tmod_chain_eq_emod (t : ℤ) : Int.tmod (Int.tmod t 12 + 12) 12 = t % 12 := by
  rcases le_or_lt 0 t with ht | ht
  · rw [Int.tmod_eq_emod ht (by norm_num)]
    have h0 : (0 : ℤ) ≤ t % 12 := Int.emod_nonneg t (by norm_num)
    rw [Int.tmod_eq_emod (by omega) (by norm_num)]
    omega
  · have hneg : Int.tmod t 12 = -Int.tmod (-t) 12 := by
      conv_lhs => rw [show t = -(-t) by ring]
      exact tmod_neg_left (-t) 12
    have hmod : Int.tmod (-t) 12 = (-t) % 12 := Int.tmod_eq_emod (by omega) (by norm_num)
    have h0 : (0 : ℤ) ≤ (-t) % 12 := Int.emod_nonneg (-t) (by norm_num)
    have h1 : (-t) % 12 < 12 := Int.emod_lt_of_pos (-t) (by norm_num)
    rw [hneg, hmod, Int.tmod_eq_emod (by omega) (by norm_num)]
    omega

/-- The semitone distance evaluates exactly on equal-tempered frequencies. -/
lemma semitonesFromA4_eq (k : ℤ) :
    semitonesFromA4 (440 * (2 : ℝ) ^ ((k : ℝ) / 12)) = k := by
  unfold semitonesFromA4
  rw [mul_div_cancel_left₀ _ (by norm_num : (440 : ℝ) ≠ 0),
    Real.logb_rpow (by norm_num) (by norm_num),
    show (12 : ℝ) * ((k : ℝ) / 12) = (k : ℝ) by ring]
  exact jsRound_intCast k

/-- Zero semitone distance at exactly 440 Hz. -/
lemma semitonesFromA4_440 : semitonesFromA4 440 = 0 := by
  unfold semitonesFromA4
  rw [div_self (by norm_num : (440 : ℝ) ≠ 0), Real.logb_one, mul_zero]
  simpa using jsRound_intCast 0

/-- C2: for every integer k, `getNoteFromFrequency` at 440 * 2 ^ (k / 12)
computes the semitone distance round(12 * log2(f / 440)) = k and returns the
note name NOTE_NAMES[((9 + k) mod 12 + 12) mod 12] with octave
4 + floor((9 + k) / 12); in particular 440 Hz yields note A, octave 4. -/
theorem claim_C2 (k : ℤ) :
    semitonesFromA4 (440 * (2 : ℝ) ^ ((k : ℝ) / 12)) = k ∧
    getNoteFromFrequency (440 * (2 : ℝ) ^ ((k : ℝ) / 12)) =
      { note := NOTE_NAMES.getD (((9 + k) % 12 + 12) % 12).toNat ""
        octave := 4 + Int.fdiv (9 + k) 12
        frequency := 440 * (2 : ℝ) ^ ((k : ℝ) / 12) } ∧
    getNoteFromFrequency 440 = { note := "A", octave := 4, frequency := 440 } := by
  refine ⟨semitonesFromA4_eq k, ?_, ?_⟩
  · simp only [getNoteFromFrequency, semitonesFromA4_eq, tmod_chain_eq_emod]
    have hidx : ((9 + k) % 12 + 12) % 12 = (9 + k) % 12 := by omega
    rw [hidx]
  · simp only [getNoteFromFrequency, semitonesFromA4_440]
    rfl

/-- Only the string and open flags of the per-string note list matter for
the counting claims; each note also carries the equal-tempered frequency. -/
lemma stringNotes_mem (s0 : StringName) (f : ℝ) (n : FingerboardNote)
    (hn : n ∈ stringNotes s0 f) :
    n.string = s0 ∧ n.musicalNote.frequency = f * (2 : ℝ) ^ ((n.position : ℝ) / 12) := by
  simp only [stringNotes, List.mem_cons, List.mem_map, List.mem_range] at hn
  rcases hn with h | ⟨i, hi, h⟩
  · subst h
    refine ⟨rfl, ?_⟩
    show f = f * (2 : ℝ) ^ (((0 : ℕ) : ℝ) / 12)
    rw [show (((0 : ℕ) : ℝ)) / 12 = (0 : ℝ) by norm_num, Real.rpow_zero, mul_one]
  · subst h
    refine ⟨rfl, ?_⟩
    show f * (2 : ℝ) ^ (((i : ℝ) + 1) / 12) = f * (2 : ℝ) ^ (((i + 1 : ℕ) : ℝ) / 12)
    push_cast
    rfl

/-- C5: `generateFingerboardMapping` returns, for each of the four strings,
exactly one open-string note at position 0 and twelve fingered notes at
positions 1 through 12 — 52 notes in total — and the note at position p on a
string with base frequency f has frequency f * 2 ^ (p / 12). -/
theorem claim_C5 :
    generateFingerboardMapping.notes.length = 52 ∧
    (∀ s : StringName,
      ((generateFingerboardMapping.notes.filter fun n =>
          decide (n.string = s) && n.isOpenString).map fun n => n.position) = [0]) ∧
    (∀ s : StringName,
      ((generateFingerboardMapping.notes.filter fun n =>
          decide (n.string = s) && !n.isOpenString).map fun n => n.position) =
        [1, 2, 3, 4, 5, 6, 7, 8, 9, 10, 11, 12]) ∧
    ∀ n ∈ generateFingerboardMapping.notes,
      n.musicalNote.frequency = CELLO_TUNING n.string * (2 : ℝ) ^ ((n.position : ℝ) / 12) := by
  refine ⟨rfl, ?_, ?_, ?_⟩
  · intro s
    cases s <;> rfl
  · intro s
    cases s <;> rfl
  · intro n hn
    simp only [generateFingerboardMapping, STRINGS, List.flatMap_cons, List.flatMap_nil,
      List.append_nil, List.mem_append] at hn
    rcases hn with h | h | h | h <;>
      · obtain ⟨hs, hf⟩ := stringNotes_mem _ _ _ h
        rw [hf, hs]

/-- The open C-string entry of the generated table, used as a witness input. -/
noncomputable def openCNote : FingerboardNote :=
  { string := StringName.C, position := 0,
    musicalNote := getNoteFromFrequency (CELLO_TUNING StringName.C),
    isOpenString := true }

/-- C5 witness: the open C-string note is in the table and its frequency is
the base frequency times 2 ^ (0 / 12). -/
theorem claim_C5_wit :
    openCNote ∈ generateFingerboardMapping.notes ∧
    openCNote.musicalNote.frequency =
      CELLO_TUNING StringName.C * (2 : ℝ) ^ (((0 : ℕ) : ℝ) / 12) := by
  have hmem : openCNote ∈ generateFingerboardMapping.notes := by
    simp [generateFingerboardMapping, STRINGS, stringNotes, openCNote]
  exact ⟨hmem, by simpa [openCNote] using claim_C5.2.2.2 _ hmem⟩

namespace StringPointDebug

/-- Ten grid rows per string (`StringPointDebugScene.tsx` line 16). -/
def POINTS_PER_STRING : ℕ := 10

/-- The generated debug grid (`StringPointDebugScene.tsx` lines 98-112):
for each string (with its index in `STRINGS`) and each row 0..9, an evenly
spaced grid point whose (y, z) are tilted about the X axis. -/
noncomputable def points (cx cy cz hs vs tiltDeg : ℝ) : List StringPoint :=
  let tiltRad := tiltDeg * Real.pi / 180
  STRINGS.enum.flatMap fun si =>
    (List.range POINTS_PER_STRING).map fun (i : ℕ) =>
      { string := si.2
        index := (i : ℝ)
        x := cx + ((si.1 : ℝ) - ((STRINGS.length : ℝ) - 1) / 2) * hs
        y := (rotateYandZ (cy + ((i : ℝ) - ((POINTS_PER_STRING : ℝ) - 1) / 2) * vs) cz tiltRad).1
        z := (rotateYandZ (cy + ((i : ℝ) - ((POINTS_PER_STRING : ℝ) - 1) / 2) * vs) cz tiltRad).2 }

/-- The mapping assembled by the debug scene's export handler
(`StringPointDebugScene.tsx` lines 114-125). -/
noncomputable def exportMapping (celloScale cx cy cz hs vs tiltDeg : ℝ) : CelloMapping :=
  { points := points cx cy cz hs vs tiltDeg
    celloScale := celloScale
    centerX := cx
    centerY := cy
    centerZ := cz
    hSpacing := hs
    vSpacing := vs
    tiltDeg := tiltDeg
    version := "1.0" }

/-- Every grid point's index is one of the naturals 0..9. -/
lemma index_mem_points (cx cy cz hs vs t : ℝ) (p : StringPoint)
    (hp : p ∈ points cx cy cz hs vs t) :
    ∃ i : ℕ, i < 10 ∧ p.index = (i : ℝ) := by
  simp only [points] at hp
  rw [List.mem_flatMap] at hp
  obtain ⟨si, _, hp⟩ := hp
  rw [List.mem_map] at hp
  obtain ⟨i, hi, hrec⟩ := hp
  rw [List.mem_range] at hi
  refine ⟨i, by simpa [POINTS_PER_STRING] using hi, ?_⟩
  rw [← hrec]

/-- The (string, row) keys of the grid, at the natural-number level. -/
def natKeys : List (StringName × ℕ) :=
  STRINGS.enum.flatMap fun si => (List.range POINTS_PER_STRING).map fun i => (si.2, i)

/-- The grid's (string, index) keys are the natural keys with the row cast
to a real number. -/
lemma points_keys (cx cy cz hs vs t : ℝ) :
    ((points cx cy cz hs vs t).map fun p => (p.string, p.index)) =
      natKeys.map fun q => (q.1, (q.2 : ℝ)) := rfl

/-- The 40 natural keys are pairwise distinct. -/
lemma natKeys_nodup : natKeys.Nodup := by decide

end StringPointDebug

/-- C6: the debug grid has exactly one point for every pair of a string in
STRINGS and a row 0..9 (40 points, pairwise distinct keys), and the point for
string index sIdx and row i lies at x = centerX + (sIdx - 1.5) * hSpacing
with (y, z) obtained by rotating (centerY + (i - 4.5) * vSpacing, centerZ)
about the X axis by the tilt angle. -/
theorem claim_C6 (cx cy cz hs vs t : ℝ) :
    (StringPointDebug.points cx cy cz hs vs t).length = 40 ∧
    ((StringPointDebug.points cx cy cz hs vs t).map fun p => (p.string, p.index)).Nodup ∧
    ∀ sIdx i : ℕ, sIdx < 4 → i < 10 →
      ({ string := STRINGS.getD sIdx StringName.C
         index := (i : ℝ)
         x := cx + ((sIdx : ℝ) - 1.5) * hs
         y := (rotateYandZ (cy + ((i : ℝ) - 4.5) * vs) cz (t * Real.pi / 180)).1
         z := (rotateYandZ (cy + ((i : ℝ) - 4.5) * vs) cz (t * Real.pi / 180)).2 } : StringPoint)
        ∈ StringPointDebug.points cx cy cz hs vs t := by
  refine ⟨rfl, ?_, ?_⟩
  · rw [StringPointDebug.points_keys]
    refine List.Nodup.map ?_ StringPointDebug.natKeys_nodup
    intro a b hab
    obtain ⟨h1, h2⟩ := Prod.mk.injEq _ _ _ _ ▸ hab
    exact Prod.ext h1 (Nat.cast_injective h2)
  · intro sIdx i h4 h10
    have hmem : (sIdx, STRINGS.getD sIdx StringName.C) ∈ STRINGS.enum := by
      interval_cases sIdx <;> decide
    simp only [StringPointDebug.points]
    rw [List.mem_flatMap]
    refine ⟨(sIdx, STRINGS.getD sIdx StringName.C), hmem, ?_⟩
    rw [List.mem_map]
    refine ⟨i, by simpa [StringPointDebug.POINTS_PER_STRING] using h10, ?_⟩
    simp only [StringPoint.mk.injEq, STRINGS, StringPointDebug.POINTS_PER_STRING]
    norm_num

/-- C6 witness: the grid point for string index 0, row 0 at the debug scene's
default parameters. -/
theorem claim_C6_wit :
    ({ string := STRINGS.getD 0 StringName.C
       index := ((0 : ℕ) : ℝ)
       x := (0 : ℝ) + (((0 : ℕ) : ℝ) - 1.5) * 0.3
       y := (rotateYandZ ((0 : ℝ) + (((0 : ℕ) : ℝ) - 4.5) * 0.33) (-0.5) (0 * Real.pi / 180)).1
       z := (rotateYandZ ((0 : ℝ) + (((0 : ℕ) : ℝ) - 4.5) * 0.33) (-0.5) (0 * Real.pi / 180)).2 }
      : StringPoint) ∈ StringPointDebug.points 0 0 (-0.5) 0.3 0.33 0 :=
  (claim_C6 0 0 (-0.5) 0.3 0.33 0).2.2 0 0 (by norm_num) (by norm_num)

/-- On an exported grid, the point lookup fails for every bin that is not one
of the row indices 0..9. -/
lemma findPoint_points_none (cx cy cz hs vs t : ℝ) (s : StringName) (bin : ℝ)
    (hbin : ∀ i : ℕ, i < 10 → bin ≠ (i : ℝ)) :
    findPoint (StringPointDebug.points cx cy cz hs vs t) s bin = none := by
  rw [findPoint, List.find?_eq_none]
  intro p hp
  obtain ⟨i, hi, hidx⟩ := StringPointDebug.index_mem_points cx cy cz hs vs t p hp
  simp only [Bool.and_eq_true, decide_eq_true_eq, not_and]
  intro _ hpi
  rw [hidx] at hpi
  exact hbin i hi hpi.symm

/-- C10: with the mapping produced by the debug scene's export (indices 0..9
per string), `getNotePosition` — in both its `celloMapping.ts` and
`StringPointDebugScene.tsx` versions — returns null for every bin outside
0..9 (in particular the fingered positions 10, 11, 12 generated by
`generateFingerboardMapping`), and in the embedding `getNotePosition` is a
total function: on any mapping state it returns either null or a position,
so it never throws. -/
theorem claim_C10 (cs cx cy cz hs vs t : ℝ) (s : StringName) (bin : ℝ)
    (hbin : ∀ i : ℕ, i < 10 → bin ≠ (i : ℝ)) :
    getNotePosition (some (StringPointDebug.exportMapping cs cx cy cz hs vs t)) s bin = none ∧
    StringPointDebug.getNotePosition
      (some (StringPointDebug.exportMapping cs cx cy cz hs vs t)) s bin = none ∧
    ∀ (st : Option CelloMapping) (sq : StringName) (b : ℝ),
      getNotePosition st sq b = none ∨ ∃ pos, getNotePosition st sq b = some pos := by
  have hnone : findPoint (StringPointDebug.exportMapping cs cx cy cz hs vs t).points s bin =
      none := findPoint_points_none cx cy cz hs vs t s bin hbin
  refine ⟨?_, ?_, ?_⟩
  · simp [getNotePosition, hnone]
  · simp [StringPointDebug.getNotePosition, hnone]
  · intro st sq b
    cases h : getNotePosition st sq b with
    | none => exact Or.inl rfl
    | some pos => exact Or.inr ⟨pos, rfl⟩

/-- C10 witness: bin 10 on the exported default grid resolves to null. -/
theorem claim_C10_wit :
    getNotePosition (some (StringPointDebug.exportMapping 5 0 0 (-0.5) 0.3 0.33 0))
      StringName.A 10 = none ∧
    StringPointDebug.getNotePosition (some (StringPointDebug.exportMapping 5 0 0 (-0.5) 0.3 0.33 0))
      StringName.A 10 = none := by
  have h := claim_C10 5 0 0 (-0.5) 0.3 0.33 0 StringName.A 10 ?_
  · exact ⟨h.1, h.2.1⟩
  · intro i hi heq
    have hcast : ((10 : ℕ) : ℝ) = (i : ℝ) := by exact_mod_cast heq
    have : (10 : ℕ) = i := Nat.cast_injective hcast
    omega

/-- JSON values, modelling both the text produced by `JSON.stringify` and
the JavaScript value produced by `JSON.parse`.  Numbers are real numbers. -/
inductive Json where
  | null : Json
  | bool (b : Bool) : Json
  | num (x : ℝ) : Json
  | str (s : String) : Json
  | arr (elems : List Json) : Json
  | obj (fields : List (String × Json)) : Json

/-- Property access `value.key`: `some` on an object with the key,
`none` (JavaScript `undefined`) otherwise. -/
def getField : Json → String → Option Json
  | Json.obj fields, key => fields.lookup key
  | _, _ => none

open Classical in
/-- JavaScript truthiness of a parsed JSON value (there is no NaN in the
real-number model). -/
noncomputable def jsTruthy : Json → Bool
  | Json.null => false
  | Json.bool b => b
  | Json.num x => decide (x ≠ 0)
  | Json.str s => decide (s ≠ "")
  | Json.arr _ => true
  | Json.obj _ => true

/-- The check `typeof mapping.key === 'number'`. -/
def isNumberField (j : Json) (key : String) : Bool :=
  match getField j key with
  | some (Json.num _) => true
  | _ => false

/-- The check `Array.isArray(mapping.key) && mapping.key.length > 0`. -/
def isNonEmptyArrayField (j : Json) (key : String) : Bool :=
  match getField j key with
  | some (Json.arr elems) => decide (0 < elems.length)
  | _ => false

/-- `validateMapping` (`celloMapping.ts` lines 73-86), applied to the
untyped value returned by `JSON.parse`. -/
noncomputable def validateMapping (mapping : Json) : Bool :=
  jsTruthy mapping &&
  isNonEmptyArrayField mapping "points" &&
  isNumberField mapping "celloScale" &&
  isNumberField mapping "centerX" &&
  isNumberField mapping "centerY" &&
  isNumberField mapping "centerZ" &&
  isNumberField mapping "hSpacing" &&
  isNumberField mapping "vSpacing" &&
  isNumberField mapping "tiltDeg"

/-- The condition the spec states for a valid mapping value: a truthy value
whose points field is a non-empty array and whose seven numeric parameters
are numbers — saying nothing about the elements of points or about the
version field. -/
def mappingWellFormed (j : Json) : Prop :=
  jsTruthy j = true ∧
  (∃ points : List Json, getField j "points" = some (Json.arr points) ∧ points ≠ []) ∧
  (∃ x : ℝ, getField j "celloScale" = some (Json.num x)) ∧
  (∃ x : ℝ, getField j "centerX" = some (Json.num x)) ∧
  (∃ x : ℝ, getField j "centerY" = some (Json.num x)) ∧
  (∃ x : ℝ, getField j "centerZ" = some (Json.num x)) ∧
  (∃ x : ℝ, getField j "hSpacing" = some (Json.num x)) ∧
  (∃ x : ℝ, getField j "vSpacing" = some (Json.num x)) ∧
  (∃ x : ℝ, getField j "tiltDeg" = some (Json.num x))

/-- The numeric-field check holds exactly when the field is a number. -/
lemma isNumberField_iff (j : Json) (key : String) :
    isNumberField j key = true ↔ ∃ x : ℝ, getField j key = some (Json.num x) := by
  unfold isNumberField
  rcases h : getField j key with _ | v
  · simp
  · cases v <;> simp

/-- The array check holds exactly when the field is a non-empty array. -/
lemma isNonEmptyArrayField_iff (j : Json) (key : String) :
    isNonEmptyArrayField j key = true ↔
      ∃ elems : List Json, getField j key = some (Json.arr elems) ∧ elems ≠ [] := by
  unfold isNonEmptyArrayField
  rcases h : getField j key with _ | v
  · simp
  · cases v <;> simp [List.length_pos]

/-- C8: `validateMapping` returns true for a value if and only if it is
truthy, its points field is an array with at least one element, and its
celloScale, centerX, centerY, centerZ, hSpacing, vSpacing and tiltDeg
fields are all numbers; the right-hand side constrains neither the elements
of points nor the version field. -/
theorem claim_C8 (j : Json) : validateMapping j = true ↔ mappingWellFormed j := by
  unfold validateMapping mappingWellFormed
  simp only [Bool.and_eq_true, isNumberField_iff, isNonEmptyArrayField_iff]
  tauto

/-- The string name serialized by `JSON.stringify`. -/
def stringNameStr : StringName → String
  | StringName.C => "C"
  | StringName.G => "G"
  | StringName.D => "D"
  | StringName.A => "A"

/-- Reading a string name back from its serialized form. -/
def stringNameOf : String → Option StringName
  | "C" => some StringName.C
  | "G" => some StringName.G
  | "D" => some StringName.D
  | "A" => some StringName.A
  | _ => none

/-- The JSON structure `JSON.stringify` emits for one point of
`mapping.points` (the export writes the fields string, index, x, y, z in
this order, `StringPointDebugScene.tsx` line 116). -/
noncomputable def encodePoint (p : StringPoint) : Json :=
  Json.obj [("string", Json.str (stringNameStr p.string)), ("index", Json.num p.index),
            ("x", Json.num p.x), ("y", Json.num p.y), ("z", Json.num p.z)]

/-- The JSON structure `JSON.stringify` emits for a `CelloMapping`
(field order as in the object literal of `handleExport`,
`StringPointDebugScene.tsx` lines 115-125). -/
noncomputable def encodeMapping (m : CelloMapping) : Json :=
  Json.obj [("points", Json.arr (m.points.map encodePoint)),
            ("celloScale", Json.num m.celloScale),
            ("centerX", Json.num m.centerX),
            ("centerY", Json.num m.centerY),
            ("centerZ", Json.num m.centerZ),
            ("hSpacing", Json.num m.hSpacing),
            ("vSpacing", Json.num m.vSpacing),
            ("tiltDeg", Json.num m.tiltDeg),
            ("version", Json.str m.version)]

/-- Reading one point back from its parsed JSON form into the typed
`StringPoint` record; `none` when the shape differs. -/
def decodePoint (j : Json) : Option StringPoint :=
  match getField j "string", getField j "index", getField j "x",
        getField j "y", getField j "z" with
  | some (Json.str s), some (Json.num index), some (Json.num x),
      some (Json.num y), some (Json.num z) =>
    match stringNameOf s with
    | some name => some { string := name, index := index, x := x, y := y, z := z }
    | none => none
  | _, _, _, _, _ => none

/-- Reading back every element of the points array; `none` as soon as one
element fails to decode. -/
def decodePoints : List Json → Option (List StringPoint)
  | [] => some []
  | j :: js =>
    match decodePoint j, decodePoints js with
    | some p, some ps => some (p :: ps)
    | _, _ => none

/-- Reading a parsed mapping back into the typed `CelloMapping` record:
this is the structure the application reads off the parsed object (the
fields accessed by `handleImport` and the points list).  It is the bridge
along which "parses back to the same structure" is stated. -/
def decodeMapping (j : Json) : Option CelloMapping :=
  match getField j "points", getField j "celloScale", getField j "centerX",
        getField j "centerY", getField j "centerZ", getField j "hSpacing",
        getField j "vSpacing", getField j "tiltDeg", getField j "version" with
  | some (Json.arr ps), some (Json.num celloScale), some (Json.num centerX),
      some (Json.num centerY), some (Json.num centerZ), some (Json.num hSpacing),
      some (Json.num vSpacing), some (Json.num tiltDeg), some (Json.str version) =>
    match decodePoints ps with
    | some points =>
      some { points := points, celloScale := celloScale, centerX := centerX,
             centerY := centerY, centerZ := centerZ, hSpacing := hSpacing,
             vSpacing := vSpacing, tiltDeg := tiltDeg, version := version }
    | none => none
  | _, _, _, _, _, _, _, _, _ => none

/-- Decoding inverts encoding on a single point. -/
lemma decodePoint_encodePoint (p : StringPoint) : decodePoint (encodePoint p) = some p := by
  cases p with
  | mk s index x y z => cases s <;> rfl

/-- Decoding inverts encoding on the whole point list. -/
lemma decodePoints_map_encodePoint (ps : List StringPoint) :
    decodePoints (ps.map encodePoint) = some ps := by
  induction ps with
  | nil => rfl
  | cons p ps ih => simp [decodePoints, decodePoint_encodePoint, ih]

/-- The outcome of one run of `importMappingFromFile`
(`celloMapping.ts` lines 102-136): the value the promise resolves with, the
`currentMapping` cell after the run, and whether an `alert` was shown. -/
structure ImportOutcome where
  result : Option Json
  newMapping : Option Json
  alerted : Bool

/-- The environment-determined branch of one import run: the user cancels
the file dialog, `JSON.parse` throws, or `JSON.parse` returns a value. -/
inductive ImportEvent where
  | noFile
  | parseError
  | parsed (j : Json)

/-- `importMappingFromFile` (`celloMapping.ts` lines 102-136) as a function
of the previous `currentMapping` state and the import event: no file chosen
resolves null silently; a parse error alerts and resolves null; a parsed
value is validated, and on success it is saved via `saveMapping` and
resolved, otherwise an alert is shown and null resolved. -/
noncomputable def importMappingFromFile (st : Option Json) : ImportEvent → ImportOutcome
  | ImportEvent.noFile => { result := none, newMapping := st, alerted := false }
  | ImportEvent.parseError => { result := none, newMapping := st, alerted := true }
  | ImportEvent.parsed j =>
    if validateMapping j then { result := some j, newMapping := some j, alerted := false }
    else { result := none, newMapping := st, alerted := true }

/-- Field reads on the serialized mapping. -/
lemma getField_encodeMapping (m : CelloMapping) :
    getField (encodeMapping m) "points" = some (Json.arr (m.points.map encodePoint)) ∧
    getField (encodeMapping m) "celloScale" = some (Json.num m.celloScale) ∧
    getField (encodeMapping m) "centerX" = some (Json.num m.centerX) ∧
    getField (encodeMapping m) "centerY" = some (Json.num m.centerY) ∧
    getField (encodeMapping m) "centerZ" = some (Json.num m.centerZ) ∧
    getField (encodeMapping m) "hSpacing" = some (Json.num m.hSpacing) ∧
    getField (encodeMapping m) "vSpacing" = some (Json.num m.vSpacing) ∧
    getField (encodeMapping m) "tiltDeg" = some (Json.num m.tiltDeg) ∧
    getField (encodeMapping m) "version" = some (Json.str m.version) :=
  ⟨rfl, rfl, rfl, rfl, rfl, rfl, rfl, rfl, rfl⟩

/-- C3: serializing a valid mapping (non-empty point list) and parsing the
text back yields a structure equal to the original: the serialized form
passes `validateMapping`, decodes to the original record, and an import run
on the parsed value saves exactly the serialized mapping and resolves with
it. -/
theorem claim_C3 (m : CelloMapping) (h : m.points ≠ []) :
    validateMapping (encodeMapping m) = true ∧
    decodeMapping (encodeMapping m) = some m ∧
    ∀ st : Option Json,
      importMappingFromFile st (ImportEvent.parsed (encodeMapping m)) =
        { result := some (encodeMapping m), newMapping := some (encodeMapping m),
          alerted := false } := by
  obtain ⟨h1, h2, h3, h4, h5, h6, h7, h8, h9⟩ := getField_encodeMapping m
  have ha : jsTruthy (encodeMapping m) = true := rfl
  have hb : isNonEmptyArrayField (encodeMapping m) "points" = true := by
    rw [isNonEmptyArrayField_iff]
    refine ⟨m.points.map encodePoint, h1, fun hc => h ?_⟩
    exact List.eq_nil_of_length_eq_zero (by simpa using congrArg List.length hc)
  have hval : validateMapping (encodeMapping m) = true := by
    simp only [validateMapping, ha, hb, (isNumberField_iff _ _).2 ⟨_, h2⟩,
      (isNumberField_iff _ _).2 ⟨_, h3⟩, (isNumberField_iff _ _).2 ⟨_, h4⟩,
      (isNumberField_iff _ _).2 ⟨_, h5⟩, (isNumberField_iff _ _).2 ⟨_, h6⟩,
      (isNumberField_iff _ _).2 ⟨_, h7⟩, (isNumberField_iff _ _).2 ⟨_, h8⟩,
      Bool.and_self]
  refine ⟨hval, ?_, ?_⟩
  · unfold decodeMapping
    simp [h1, h2, h3, h4, h5, h6, h7, h8, h9, decodePoints_map_encodePoint]
  · intro st
    simp only [importMappingFromFile, hval]
    simp

/-- C3 witness: the round trip evaluated on the concrete mapping. -/
theorem claim_C3_wit :
    validateMapping (encodeMapping tiltedMapping) = true ∧
    decodeMapping (encodeMapping tiltedMapping) = some tiltedMapping := by
  have h := claim_C3 tiltedMapping (by simp [tiltedMapping])
  exact ⟨h.1, h.2.1⟩

/-- C4 (counterexample): when no file is chosen the import resolves null —
a failure case — but no user-facing warning is shown, contradicting the
claim that a warning is shown in each failure case. -/
theorem claim_C4_cex :
    (importMappingFromFile none ImportEvent.noFile).result = none ∧
    (importMappingFromFile none ImportEvent.noFile).alerted = false :=
  ⟨rfl, rfl⟩

/-- C4 (amended): `importMappingFromFile` resolves null exactly when no file
is chosen, the content fails to parse, or `validateMapping` rejects the
parsed value; the warning is shown exactly in the parse-failure and
validation-failure cases (the no-file case is silent); in every failure case
`currentMapping` is unchanged, and only on success the parsed mapping is
saved and returned. -/
theorem claim_C4 (st : Option Json) (ev : ImportEvent) :
    ((importMappingFromFile st ev).result = none ↔
      (ev = ImportEvent.noFile ∨ ev = ImportEvent.parseError ∨
        ∃ j, ev = ImportEvent.parsed j ∧ validateMapping j = false)) ∧
    ((importMappingFromFile st ev).result = none →
      (importMappingFromFile st ev).newMapping = st) ∧
    ((importMappingFromFile st ev).alerted = true ↔
      (ev = ImportEvent.parseError ∨
        ∃ j, ev = ImportEvent.parsed j ∧ validateMapping j = false)) ∧
    ∀ j, ev = ImportEvent.parsed j → validateMapping j = true →
      importMappingFromFile st ev =
        { result := some j, newMapping := some j, alerted := false } := by
  cases ev with
  | noFile => simp [importMappingFromFile]
  | parseError => simp [importMappingFromFile]
  | parsed j =>
    cases hv : validateMapping j with
    | true => simp [importMappingFromFile, hv]
    | false => simp [importMappingFromFile, hv]

/-- C4 witness: a successful import of the serialized concrete mapping. -/
theorem claim_C4_wit :
    importMappingFromFile none (ImportEvent.parsed (encodeMapping tiltedMapping)) =
      { result := some (encodeMapping tiltedMapping),
        newMapping := some (encodeMapping tiltedMapping), alerted := false } := by
  have hv : validateMapping (encodeMapping tiltedMapping) = true := by
    unfold validateMapping
    rfl
  exact (claim_C4 none (ImportEvent.parsed (encodeMapping tiltedMapping))).2.2.2 _ rfl hv

/-- Fingering difficulty (`types.ts`, `StringOption.difficulty`). -/
inductive Difficulty where
  | easy
  | medium
  | hard
deriving DecidableEq

/-- A playable option for a note (`types.ts`, `StringOption`). -/
structure StringOption where
  string : StringName
  position : ℕ
  isOpenString : Bool
  difficulty : Difficulty

/-- The sort ranks of `fingerboardMapper.ts` line 103:
`{ easy: 0, medium: 1, hard: 2 }`. -/
def difficultyOrder : Difficulty → ℕ
  | Difficulty.easy => 0
  | Difficulty.medium => 1
  | Difficulty.hard => 2

/-- `getStringOptionsForNote` (`fingerboardMapper.ts` lines 73-105): collect
every fingerboard note matching the requested name and octave, label it
easy / medium / hard, and sort ascending by difficulty rank (the comparator
`difficultyOrder[a] - difficultyOrder[b]` under a stable sort). -/
noncomputable def getStringOptionsForNote (musicalNote : MusicalNote) : List StringOption :=
  let options := (generateFingerboardMapping.notes.filter fun fn =>
    decide (fn.musicalNote.note = musicalNote.note) &&
    decide (fn.musicalNote.octave = musicalNote.octave)).map fun fn =>
      { string := fn.string, position := fn.position, isOpenString := fn.isOpenString,
        difficulty :=
          if fn.isOpenString then Difficulty.easy
          else if fn.position ≤ 4 then Difficulty.medium
          else Difficulty.hard }
  options.mergeSort fun a b => decide (difficultyOrder a.difficulty ≤ difficultyOrder b.difficulty)

/-- C9: every returned option corresponds to a fingerboard note matching the
requested name and octave; an option is easy exactly when it is an open
string, medium exactly when it is fingered at position at most 4, hard
exactly when it is fingered above position 4; and the returned list is
sorted easy-first by difficulty rank. -/
theorem claim_C9 (q : MusicalNote) :
    (∀ opt ∈ getStringOptionsForNote q,
      (∃ fn ∈ generateFingerboardMapping.notes,
        fn.musicalNote.note = q.note ∧ fn.musicalNote.octave = q.octave ∧
        fn.string = opt.string ∧ fn.position = opt.position ∧
        fn.isOpenString = opt.isOpenString) ∧
      (opt.difficulty = Difficulty.easy ↔ opt.isOpenString = true) ∧
      (opt.difficulty = Difficulty.medium ↔ (opt.isOpenString = false ∧ opt.position ≤ 4)) ∧
      (opt.difficulty = Difficulty.hard ↔ (opt.isOpenString = false ∧ 4 < opt.position))) ∧
    List.Pairwise (fun a b => difficultyOrder a.difficulty ≤ difficultyOrder b.difficulty)
      (getStringOptionsForNote q) := by
  constructor
  · intro opt hopt
    unfold getStringOptionsForNote at hopt
    rw [(List.mergeSort_perm _ _).mem_iff, List.mem_map] at hopt
    obtain ⟨fn, hfn, rfl⟩ := hopt
    rw [List.mem_filter] at hfn
    obtain ⟨hfnmem, hpred⟩ := hfn
    simp only [Bool.and_eq_true, decide_eq_true_eq] at hpred
    refine ⟨⟨fn, hfnmem, hpred.1, hpred.2, rfl, rfl, rfl⟩, ?_⟩
    cases ho : fn.isOpenString with
    | true => simp [ho]
    | false => by_cases hp : fn.position ≤ 4 <;> simp [ho, hp] <;> omega
  · unfold getStringOptionsForNote
    refine List.Pairwise.imp ?_ (List.sorted_mergeSort ?_ ?_ _)
    · intro a b hab
      exact of_decide_eq_true hab
    · intro a b c hab hbc
      simp only [decide_eq_true_eq] at hab hbc ⊢
      omega
    · intro a b
      simp only [Bool.or_eq_true, decide_eq_true_eq]
      omega

/-- The open A string sounds as note A, octave 3. -/
lemma getNoteFromFrequency_A3 :
    getNoteFromFrequency (CELLO_TUNING StringName.A) =
      { note := "A", octave := 3, frequency := CELLO_TUNING StringName.A } := by
  have hsemi : semitonesFromA4 (CELLO_TUNING StringName.A) = -12 := by
    unfold semitonesFromA4
    have h1 : CELLO_TUNING StringName.A / 440 = (2 : ℝ)⁻¹ := by
      norm_num [CELLO_TUNING]
    rw [h1, Real.logb_inv, Real.logb_self_eq_one (by norm_num)]
    rw [show (12 : ℝ) * -1 = ((-12 : ℤ) : ℝ) by norm_num]
    exact jsRound_intCast (-12)
  simp only [getNoteFromFrequency, hsemi]
  rfl

/-- The query note A octave 3 used as a witness input. -/
noncomputable def queryA3 : MusicalNote := { note := "A", octave := 3, frequency := 220 }

/-- The open-A-string option used as a witness input. -/
def openAOption : StringOption :=
  { string := StringName.A, position := 0, isOpenString := true,
    difficulty := Difficulty.easy }

/-- The open A-string entry of the generated table, used as a witness input. -/
noncomputable def openANote : FingerboardNote :=
  { string := StringName.A, position := 0,
    musicalNote := getNoteFromFrequency (CELLO_TUNING StringName.A),
    isOpenString := true }

/-- C9 witness: for the query note A octave 3, the open A string is among
the returned options and is labelled easy exactly because it is open. -/
theorem claim_C9_wit :
    openAOption ∈ getStringOptionsForNote queryA3 ∧
    (openAOption.difficulty = Difficulty.easy ↔ openAOption.isOpenString = true) := by
  have hmem : openAOption ∈ getStringOptionsForNote queryA3 := by
    unfold getStringOptionsForNote
    rw [(List.mergeSort_perm _ _).mem_iff, List.mem_map]
    refine ⟨openANote, ?_, rfl⟩
    rw [List.mem_filter]
    constructor
    · simp [generateFingerboardMapping, STRINGS, stringNotes, openANote]
    · simp [getNoteFromFrequency_A3, queryA3, openANote]
  exact ⟨hmem, ((claim_C9 queryA3).1 _ hmem).2.1⟩
